import Mathlib

/-!
Verification of the ASCII video player (`src/player.py`, duplicated as the
`PLAYER_CODE` payload of `src/install_ascii_player.py`).

The player converts decoded video frames into ASCII text and paces playback.
Python arithmetic on nonnegative quantities is embedded exactly over `ℚ`/`ℤ`/`ℕ`:
`int(x)` on a nonnegative `x` is `⌊x⌋`, Python `/` is exact division, and a
division whose denominator is `0` raises `ZeroDivisionError`, embedded as `none`.
External collaborators (OpenCV capture, the terminal, the filesystem) enter the
model as inputs: the resized grayscale frame is a `width × height` grid of
luminance values (the contract of `cv2.resize` + `cv2.cvtColor`), `os.path.isfile`
is a boolean, and the number of frames the capture yields is a parameter.
-/

namespace AsciiPlayer

/-- The compact glyph ramp, `ASCII_CHARS = '@%#*+=-:. '` in `player.py`. -/
def ASCII_CHARS : List Char := ['@', '%', '#', '*', '+', '=', '-', ':', '.', ' ']

/-- `frame_to_ascii`'s index computation `int(pixel / 255 * (len(self.ascii_chars) - 1))`
for a luminance `pixel` and a ramp of length `rampLen`.  The operand is nonnegative
for `rampLen ≥ 1`, so Python's truncating `int()` is the floor. -/
def char_index (pixel : ℕ) (rampLen : ℕ) : ℤ :=
  ⌊(pixel : ℚ) / 255 * ((rampLen : ℚ) - 1)⌋

/-- The glyph index as the spec words it: `floor(L / 255 * (n - 1))` clamped
to `[0, n-1]`. -/
def glyph_index_spec (L n : ℕ) : ℤ :=
  max 0 (min (⌊(L : ℚ) / 255 * ((n : ℚ) - 1)⌋) ((n : ℤ) - 1))

/-- One row of `frame_to_ascii`'s inner loop: each luminance value of the
(resized, grayscale) row is mapped to the ramp character at `char_index`. -/
def asciiRow (ramp : List Char) (row : List ℕ) : List Char :=
  row.map fun pixel => ramp.getD (char_index pixel ramp.length).toNat ' '

/-- `frame_to_ascii` after the external resize/grayscale steps: the grid `gray`
(one list of luminance values per row) becomes one line of glyphs per row; the
source appends a newline separator after each row, so the text block is exactly
this list of lines.  A pure function of its arguments. -/
def frame_to_ascii (ramp : List Char) (gray : List (List ℕ)) : List (List Char) :=
  gray.map (asciiRow ramp)

/-- `__init__`'s height derivation
`self.height = int(self.width * self.original_height / self.original_width * 0.55)`:
Python's `int()` truncates toward zero, and for nonnegative `width`, `oh`, `ow`
the operand is nonnegative, so this is the floor. -/
def derived_height (width ow oh : ℕ) : ℤ :=
  ⌊(width : ℚ) * oh / ow * (55 / 100)⌋

/-- The height derivation as the spec words it:
`round(width * source_height / source_width * 0.55)`. -/
def derived_height_spec (width ow oh : ℕ) : ℤ :=
  round ((width : ℚ) * oh / ow * (55 / 100))

/-- The progress expression `frame_num / self.frame_count * 100` of the progress
line printed each iteration of `play`: Python raises `ZeroDivisionError` when
`frame_count = 0` (embedded as `none`), otherwise the exact percentage. -/
def progress_percent (frame_num frame_count : ℤ) : Option ℚ :=
  if frame_count = 0 then none else some ((frame_num : ℚ) / frame_count * 100)

/-- `play`'s pacing delay
`frame_delay = 1.0 / self.fps if self.fps > 0 else 0.033`: a total function of
the reported frame rate, so a zero (or negative, i.e. unknown) rate yields the
fixed fallback rather than a division error or an unbounded delay. -/
def frame_delay (fps : ℚ) : ℚ :=
  if fps > 0 then 1 / fps else 33 / 1000

/-- `play`'s conditional seek
`if start_frame > 0: self.cap.set(cv2.CAP_PROP_POS_FRAMES, start_frame)`:
whether a seek instruction is sent to the capture. -/
def seek_issued (start_frame : ℤ) : Bool :=
  start_frame > 0

/-- The successive values of `frame_num` during `play`'s loop when the capture
yields `k` more frames before `cap.read()` reports end of stream: `frame_num`
starts at `start_frame`, the entry at position `i` is the value printed in the
progress line of the i-th emitted frame, `frame_num += 1` runs once per emitted
frame, and the final entry is the value held when the loop breaks. -/
def frame_num_trace (frame_num : ℤ) : ℕ → List ℤ
  | 0 => [frame_num]
  | k + 1 => frame_num :: frame_num_trace (frame_num + 1) k

/-- The ways control can leave the loop inside `play`'s `try` body: a failed
`cap.read()` (natural end of stream), a `KeyboardInterrupt` delivered at any
point of the body, or any other exception (carrying its message). -/
inductive LoopExit where
  | endOfStream : LoopExit
  | interrupt : LoopExit
  | exc : String → LoopExit
deriving DecidableEq

/-- The observable outcome of `play` once the loop has been left: status lines
printed by `play` itself, how many times the `finally` block ran
`self.cleanup()` (hence `self.cap.release()`), and the exception, if any, that
`play` re-raises to its caller. -/
structure PlayReturn where
  printed : List String
  cleanup_calls : ℕ
  raised : Option String
deriving DecidableEq

/-- The tail of `play`: after the loop, the `try` body prints the completion
banner; `except KeyboardInterrupt` prints the stopped-by-user banner and
swallows the interrupt; any other exception propagates; the `finally` block
calls `self.cleanup()` on each of these paths. -/
def play_finish (e : LoopExit) : PlayReturn :=
  match e with
  | .endOfStream =>
      { printed := ["\n\n✓ Video playback complete!"], cleanup_calls := 1, raised := none }
  | .interrupt =>
      { printed := ["\n\n⏸ Playback stopped by user"], cleanup_calls := 1, raised := none }
  | .exc msg =>
      { printed := [], cleanup_calls := 1, raised := some msg }

/-- `main`'s tail: `player.play(...)` wrapped in `try/except Exception`; a
propagated exception becomes `Error: <message>` plus `sys.exit(1)`, otherwise
`main` returns and the process exits 0. Yields (all lines printed by play and
main, process exit code). -/
def main_play (e : LoopExit) : List String × ℕ :=
  let r := play_finish e
  match r.raised with
  | none => (r.printed, 0)
  | some msg => (r.printed ++ ["Error: " ++ msg], 1)

/-- `main`'s file-existence gate, which runs before the player is constructed:
lines printed, the exit code if the gate terminates the process (`none` means
execution continues), and whether construction — hence opening the frame
source — is ever attempted. -/
structure MainGate where
  printed : List String
  exit_code : Option ℕ
  open_attempted : Bool
deriving DecidableEq

/-- `if not os.path.isfile(args.video): print(...); sys.exit(1)` in `main`,
with `os.path.isfile` modelled as the boolean `isfile`: on a missing file the
literal message is printed and the process exits 1 without constructing
`ASCIIVideoPlayer` (so without opening the source); otherwise control proceeds
to construction. -/
def main_file_gate (isfile : Bool) (video : String) : MainGate :=
  if isfile then
    { printed := [], exit_code := none, open_attempted := true }
  else
    { printed := ["Error: File not found: " ++ video], exit_code := some 1,
      open_attempted := false }

/- Helper lemmas about `char_index`. -/

theorem char_index_eq_natDiv (pixel n : ℕ) (hn : 1 ≤ n) :
    char_index pixel n = ((pixel * (n - 1)) / 255 : ℕ) := by
  unfold char_index
  have h1 : ((n : ℚ) - 1) = ((n - 1 : ℕ) : ℚ) := by
    have : (1 : ℕ) ≤ n := hn
    push_cast [Nat.cast_sub this]
    ring
  rw [h1]
  have h2 : (pixel : ℚ) / 255 * ((n - 1 : ℕ) : ℚ) = ((pixel * (n - 1) : ℕ) : ℚ) / ((255 : ℕ) : ℚ) := by
    push_cast
    ring
  rw [h2]
  rw [Rat.floor_natCast_div_natCast]
  norm_cast

theorem char_index_le (pixel n : ℕ) (hn : 1 ≤ n) (hp : pixel ≤ 255) :
    char_index pixel n ≤ (n : ℤ) - 1 := by
  rw [char_index_eq_natDiv pixel n hn]
  have hdiv : pixel * (n - 1) / 255 ≤ n - 1 := by
    calc pixel * (n - 1) / 255 ≤ 255 * (n - 1) / 255 :=
          Nat.div_le_div_right (Nat.mul_le_mul_right _ hp)
      _ = n - 1 := Nat.mul_div_cancel_left _ (by norm_num)
  have : ((pixel * (n - 1) / 255 : ℕ) : ℤ) ≤ ((n - 1 : ℕ) : ℤ) := by exact_mod_cast hdiv
  omega

theorem char_index_nonneg (pixel n : ℕ) (hn : 1 ≤ n) : 0 ≤ char_index pixel n := by
  rw [char_index_eq_natDiv pixel n hn]
  exact_mod_cast Nat.zero_le _

end AsciiPlayer

namespace AsciiPlayer

/-- C4: for every luminance `L ≤ 255` and ramp length `n ≥ 2`, the glyph index
computed by `frame_to_ascii` equals `floor(L / 255 * (n - 1))` clamped to
`[0, n-1]`; it is monotone non-decreasing in `L`, maps `L = 0` to `0`, and maps
`L = 255` exactly to `n - 1`. -/
theorem char_index_spec_correct (n : ℕ) (hn : 2 ≤ n) :
    (∀ L, L ≤ 255 → char_index L n = glyph_index_spec L n) ∧
    (∀ L₁ L₂, L₁ ≤ L₂ → char_index L₁ n ≤ char_index L₂ n) ∧
    char_index 0 n = 0 ∧
    char_index 255 n = (n : ℤ) - 1 := by
  have hn1 : 1 ≤ n := le_trans (by norm_num) hn
  refine ⟨?_, ?_, ?_, ?_⟩
  · intro L hL
    unfold glyph_index_spec
    have hle : char_index L n ≤ (n : ℤ) - 1 := char_index_le L n hn1 hL
    have hge : 0 ≤ char_index L n := char_index_nonneg L n hn1
    unfold char_index at *
    omega
  · intro L₁ L₂ h
    rw [char_index_eq_natDiv L₁ n hn1, char_index_eq_natDiv L₂ n hn1]
    exact_mod_cast Nat.div_le_div_right (Nat.mul_le_mul_right _ h)
  · rw [char_index_eq_natDiv 0 n hn1]
    simp
  · rw [char_index_eq_natDiv 255 n hn1]
    rw [Nat.mul_div_cancel_left _ (by norm_num : 0 < 255)]
    have : (1 : ℕ) ≤ n := hn1
    push_cast [Nat.cast_sub this]
    ring

/-- Witness for C4 at the compact ramp length `n = 10`. -/
theorem char_index_spec_correct_witness :
    (2 ≤ ASCII_CHARS.length) ∧
    char_index 0 ASCII_CHARS.length = 0 ∧
    char_index 255 ASCII_CHARS.length = (ASCII_CHARS.length : ℤ) - 1 := by
  have h := char_index_spec_correct ASCII_CHARS.length (by decide)
  exact ⟨by decide, h.2.2.1, h.2.2.2⟩

/-- C5: for a resized grayscale grid of exactly `height` rows of `width`
luminance samples each (the contract of the resize step) and any glyph ramp,
`frame_to_ascii` yields exactly `height` lines, each exactly `width` characters
long; it is a pure function with no side effects. -/
theorem frame_to_ascii_dims (ramp : List Char) (gray : List (List ℕ))
    (width height : ℕ) (_hw : 0 < width) (_hh : 0 < height)
    (hrows : gray.length = height) (hcols : ∀ row ∈ gray, row.length = width) :
    (frame_to_ascii ramp gray).length = height ∧
    ∀ line ∈ frame_to_ascii ramp gray, line.length = width := by
  constructor
  · rw [frame_to_ascii, List.length_map, hrows]
  · intro line hline
    rw [frame_to_ascii, List.mem_map] at hline
    obtain ⟨row, hrow, rfl⟩ := hline
    rw [asciiRow, List.length_map]
    exact hcols row hrow

/-- C2 counterexample: for caller-supplied width 100 and a 1920x1080 source the
code's truncating height derivation yields 30, while the claimed
`round(width * source_height / source_width * 0.55)` yields 31 (the exact value
is 30.9375), so the height does not equal the rounded expression for every
width. -/
theorem derived_height_ne_round_at_width_100 :
    derived_height 100 1920 1080 = 30 ∧ derived_height_spec 100 1920 1080 = 31 := by
  constructor
  · unfold derived_height
    rw [Int.floor_eq_iff]
    norm_num
  · unfold derived_height_spec
    rw [round_eq, Int.floor_eq_iff]
    norm_num

/-- C2 amended: the character height computed once at construction is the
truncation (floor, for these nonnegative quantities) of
`width * source_height / source_width * 0.55`, which never exceeds the rounded
value; in particular, for width 120 and a 1920x1080 source the derived height is
37, where truncation and rounding agree. -/
theorem derived_height_floor_spec :
    derived_height 120 1920 1080 = 37 ∧ derived_height_spec 120 1920 1080 = 37 ∧
    ∀ width ow oh : ℕ, derived_height width ow oh ≤ derived_height_spec width ow oh := by
  refine ⟨?_, ?_, ?_⟩
  · unfold derived_height
    rw [Int.floor_eq_iff]
    norm_num
  · unfold derived_height_spec
    rw [round_eq, Int.floor_eq_iff]
    norm_num
  · intro width ow oh
    unfold derived_height derived_height_spec
    rw [round_eq]
    exact Int.floor_mono (by linarith)

/-- C1 counterexample: with `total_frames = 0` the progress expression
`frame_num / frame_count * 100` raises `ZeroDivisionError` (embedded as `none`)
instead of reporting 0%. -/
theorem progress_percent_zero_total_raises :
    progress_percent 45 0 = none ∧ progress_percent 45 0 ≠ some 0 := by
  constructor
  · simp [progress_percent]
  · simp [progress_percent]

/-- C1 amended: emitting the progress line with `total_frames = 0` raises a
division error for every frame counter value (no percentage, 0% included, is
reported); with a nonzero total the exact percentage
`frame_num / frame_count * 100` is reported. -/
theorem progress_percent_cases :
    (∀ n : ℤ, progress_percent n 0 = none) ∧
    (∀ n c : ℤ, c ≠ 0 → progress_percent n c = some ((n : ℚ) / c * 100)) := by
  constructor
  · intro n
    simp [progress_percent]
  · intro n c hc
    simp [progress_percent, hc]

/-- Witness for the amended C1: at frame 45 of a 90-frame video the reported
percentage is exactly 50. -/
theorem progress_percent_cases_witness :
    progress_percent 45 0 = none ∧ progress_percent 45 90 = some 50 := by
  refine ⟨progress_percent_cases.1 45, ?_⟩
  rw [progress_percent_cases.2 45 90 (by norm_num)]
  norm_num

/-- Witness for the amended C2: a concrete instance of the floor-below-round
bound, at width 150 and a 1280x720 source. -/
theorem derived_height_floor_spec_witness :
    derived_height 150 1280 720 ≤ derived_height_spec 150 1280 720 :=
  derived_height_floor_spec.2.2 150 1280 720

/-- Witness for C5: a concrete 2 × 3 grid rendered with the compact ramp. -/
theorem frame_to_ascii_dims_witness :
    (frame_to_ascii ASCII_CHARS [[0, 128, 255], [10, 20, 30]]).length = 2 ∧
    ∀ line ∈ frame_to_ascii ASCII_CHARS [[0, 128, 255], [10, 20, 30]], line.length = 3 := by
  have h := frame_to_ascii_dims ASCII_CHARS [[0, 128, 255], [10, 20, 30]] 3 2
    (by norm_num) (by norm_num) (by decide)
    (by intro row hrow; fin_cases hrow <;> decide)
  exact h

/- Helper lemmas about the frame counter trace. -/

theorem frame_num_trace_head (start : ℤ) (k : ℕ) :
    (frame_num_trace start k).head? = some start := by
  cases k <;> simp [frame_num_trace]

theorem frame_num_trace_mem_bounds (start : ℤ) (k : ℕ) :
    ∀ i ∈ frame_num_trace start k, start ≤ i ∧ i ≤ start + k := by
  induction k generalizing start with
  | zero =>
    intro i hi
    simp only [frame_num_trace, List.mem_singleton] at hi
    omega
  | succ n ih =>
    intro i hi
    rw [frame_num_trace] at hi
    rcases List.mem_cons.mp hi with h | h
    · omega
    · have := ih (start + 1) i h
      push_cast
      push_cast at this
      omega

theorem frame_num_trace_chain (start : ℤ) (k : ℕ) :
    List.Chain' (fun a b => b = a + 1) (frame_num_trace start k) := by
  induction k generalizing start with
  | zero => simp [frame_num_trace]
  | succ n ih =>
    rw [frame_num_trace, List.chain'_cons']
    refine ⟨?_, ih (start + 1)⟩
    intro b hb
    rw [frame_num_trace_head] at hb
    simp only [Option.mem_def, Option.some.injEq] at hb
    omega

theorem frame_num_trace_sorted (start : ℤ) (k : ℕ) :
    (frame_num_trace start k).Sorted (· ≤ ·) := by
  have h : List.Chain' (· ≤ ·) (frame_num_trace start k) :=
    (frame_num_trace_chain start k).imp (fun hab => by omega)
  exact List.chain'_iff_pairwise.mp h

theorem frame_num_trace_get (start : ℤ) (k i : ℕ) (h : i ≤ k) :
    (frame_num_trace start k).get? i = some (start + i) := by
  induction k generalizing start i with
  | zero =>
    have hi : i = 0 := by omega
    subst hi
    simp [frame_num_trace]
  | succ n ih =>
    cases i with
    | zero =>
      rw [frame_num_trace]
      simp
    | succ j =>
      rw [frame_num_trace]
      rw [List.get?_cons_succ]
      rw [ih (start + 1) j (by omega)]
      congr 1
      push_cast
      ring

/-- C3 counterexample: the CLI accepts any integer for `--start`, including
`-1`; with start_index = -1 the frame counter of a pass that emits one frame
takes the value -1, outside `[0, frame_count]` for any frame count (here 10),
so the claimed invariant fails as stated. -/
theorem frame_index_invariant_fails_negative_start :
    ¬ ∀ i ∈ frame_num_trace (-1) 1, 0 ≤ i ∧ i ≤ 10 := by
  decide

/-- C3 amended: during one playback pass the frame index starts at
`start_index`, advances by exactly one per emitted frame, and never decreases;
it stays within `[0, frame_count]` provided `start_index ≥ 0` and the source
yields at most `frame_count - start_index` frames (the CLI also accepts
negative start indices, which break the lower bound). -/
theorem frame_index_invariant (start total : ℤ) (k : ℕ)
    (hstart : 0 ≤ start) (hk : start + k ≤ total) :
    (frame_num_trace start k).head? = some start ∧
    List.Chain' (fun a b => b = a + 1) (frame_num_trace start k) ∧
    (frame_num_trace start k).Sorted (· ≤ ·) ∧
    ∀ i ∈ frame_num_trace start k, 0 ≤ i ∧ i ≤ total := by
  refine ⟨frame_num_trace_head start k, frame_num_trace_chain start k,
    frame_num_trace_sorted start k, ?_⟩
  intro i hi
  have h := frame_num_trace_mem_bounds start k i hi
  omega

/-- Witness for the amended C3: a pass over frames 0..3 of a 5-frame video. -/
theorem frame_index_invariant_witness :
    (frame_num_trace 0 3).head? = some 0 ∧
    List.Chain' (fun a b => b = a + 1) (frame_num_trace 0 3) ∧
    (frame_num_trace 0 3).Sorted (· ≤ ·) ∧
    ∀ i ∈ frame_num_trace 0 3, 0 ≤ i ∧ i ≤ 5 :=
  frame_index_invariant 0 5 3 (by norm_num) (by norm_num)

/-- C6: on every exit path of `play` — natural end of stream, user
interruption, and any other exception propagating out of the loop — the
`finally` block runs the frame source's release step exactly once. -/
theorem play_cleanup_exactly_once (e : LoopExit) :
    (play_finish e).cleanup_calls = 1 := by
  cases e <;> rfl

/-- Witness for C6 at the interrupt exit path. -/
theorem play_cleanup_exactly_once_witness :
    (play_finish LoopExit.interrupt).cleanup_calls = 1 :=
  play_cleanup_exactly_once LoopExit.interrupt

/-- C7: natural completion and user interruption both end the process with
exit code 0, and the two outcomes differ only in the status line printed by
`play`: the completion banner versus the distinct stopped-by-user banner. -/
theorem exit_zero_completion_and_interrupt :
    main_play LoopExit.endOfStream = (["\n\n✓ Video playback complete!"], 0) ∧
    main_play LoopExit.interrupt = (["\n\n⏸ Playback stopped by user"], 0) ∧
    ("\n\n⏸ Playback stopped by user" : String) ≠ "\n\n✓ Video playback complete!" := by
  refine ⟨rfl, rfl, by decide⟩

/-- C8: at initialization `frame_delay` is `1/frame_rate` for a positive
reported rate and the fixed fallback `0.033` otherwise; being a total function
it raises no division error, and for a nonnegative rate the delay is positive
and finite. -/
theorem frame_delay_spec (fps : ℚ) :
    (0 < fps → frame_delay fps = 1 / fps) ∧
    (¬ 0 < fps → frame_delay fps = 33 / 1000) ∧
    (0 ≤ fps → 0 < frame_delay fps) := by
  refine ⟨?_, ?_, ?_⟩
  · intro h
    simp [frame_delay, h]
  · intro h
    simp [frame_delay, h]
  · intro _
    unfold frame_delay
    split
    · positivity
    · norm_num

/-- Witness for C8 at a 30 fps source and a source reporting rate 0. -/
theorem frame_delay_spec_witness :
    frame_delay 30 = 1 / 30 ∧ frame_delay 0 = 33 / 1000 ∧ 0 < frame_delay 0 := by
  refine ⟨(frame_delay_spec 30).1 (by norm_num), (frame_delay_spec 0).2.1 (by norm_num),
    (frame_delay_spec 0).2.2 (by norm_num)⟩

/-- C9: for every path whose file-existence check fails, `main` prints the
literal `Error: File not found: <path>`, exits with status 1, and never
attempts to open the frame source. -/
theorem file_not_found_gate (video : String) (isfile : Bool) (h : isfile = false) :
    (main_file_gate isfile video).printed = ["Error: File not found: " ++ video] ∧
    (main_file_gate isfile video).exit_code = some 1 ∧
    (main_file_gate isfile video).open_attempted = false := by
  subst h
  exact ⟨rfl, rfl, rfl⟩

/-- Witness for C9 at a concrete missing path. -/
theorem file_not_found_gate_witness :
    (main_file_gate false "missing.mp4").printed = ["Error: File not found: missing.mp4"] ∧
    (main_file_gate false "missing.mp4").exit_code = some 1 ∧
    (main_file_gate false "missing.mp4").open_attempted = false :=
  file_not_found_gate "missing.mp4" false rfl

/-- C10: for every `start_frame ≤ 0` no seek is issued to the frame source, so
decoding begins at frame 0 and the i-th emitted frame is the true frame `i`;
the counter displayed with it is `start_frame + i` — offset by `start_frame`
from the true position for the whole pass — and the printed percentage is
computed from that offset counter, so it too is offset by
`start_frame/total * 100`. -/
theorem no_seek_offset_counter (start : ℤ) (hstart : start ≤ 0) (k i : ℕ)
    (hik : i ≤ k) (total : ℤ) (htotal : total ≠ 0) :
    seek_issued start = false ∧
    (frame_num_trace start k).get? i = some (start + i) ∧
    progress_percent (start + i) total =
      some ((i : ℚ) / total * 100 + (start : ℚ) / total * 100) := by
  refine ⟨?_, frame_num_trace_get start k i hik, ?_⟩
  · unfold seek_issued
    simp only [decide_eq_false_iff_not, not_lt]
    exact hstart
  · simp only [progress_percent, htotal, if_neg htotal, Option.some.injEq]
    push_cast
    field_simp
    ring

/-- Witness for C10: start_frame = -2, third loop entry, 90-frame video. -/
theorem no_seek_offset_counter_witness :
    seek_issued (-2) = false ∧
    (frame_num_trace (-2) 3).get? 1 = some ((-2 : ℤ) + ((1 : ℕ) : ℤ)) ∧
    progress_percent ((-2 : ℤ) + ((1 : ℕ) : ℤ)) 90 =
      some (((1 : ℕ) : ℚ) / 90 * 100 + ((-2 : ℤ) : ℚ) / 90 * 100) :=
  no_seek_offset_counter (-2) (by norm_num) 3 1 (by norm_num) 90 (by norm_num)

end AsciiPlayer
